import Mathlib

/-!
Verification development for the FINDL DRM key-acquisition subsystem.

This file gives a shallow embedding of the two core modules,
`findl/services/base.py` (PSSH discovery) and `findl/core/drm.py`
(CDM session management, license strategy dispatch, key aggregation),
and proves the behavioural properties stated about them.

Modelling conventions:
- Python `bytes` values are `List Nat` (each entry a byte value `< 256`).
- Network I/O and the regex-based scanners are abstracted into explicit
  environment records (`NetEnv`, `DrmEnv`): each HTTP request or regex
  scan is a function of the call's arguments, returning the observed
  response (or the fact that the call raised).
- Exceptions are explicit: a function that can let a Python exception
  escape returns `Except Unit α`; exceptions that the source catches
  locally are resolved inside the corresponding definition.
- Calls into the injected CDM capability, and logging calls, are
  recorded in an event trace (`Event`), so that claims about the session
  lifecycle and about log severities are statable.
-/

set_option autoImplicit false

namespace FINDL

/-! ## Generic helpers: Python-style list/byte/string primitives -/

/-- First index at which `pat` occurs in the remaining list, counting from `i`.
Models Python `bytes.find` / `str.find` (which returns the lowest index). -/
def findSubAux {α : Type} [BEq α] (pat : List α) : List α → Nat → Option Nat
  | [], i => if pat.isEmpty then some i else none
  | d :: rest, i =>
    if pat.isPrefixOf (d :: rest) then some i else findSubAux pat rest (i + 1)

/-- `findSub data pat` is the first index of `pat` inside `data` (Python `find`). -/
def findSub {α : Type} [BEq α] (data pat : List α) : Option Nat :=
  findSubAux pat data 0

/-- Python `pat in data` membership test (substring search). -/
def containsSub {α : Type} [BEq α] (data pat : List α) : Bool :=
  (findSub data pat).isSome

/-- Python `pat in s` on strings. -/
def containsStr (s pat : String) : Bool :=
  containsSub s.data pat.data

/-- Python slice `data[a:b]` for `0 ≤ a ≤ b` (indices clamp to the length). -/
def pySlice {α : Type} (data : List α) (a b : Nat) : List α :=
  (data.drop a).take (b - a)

/-- Python `int.from_bytes(bs, byteorder="big")`. -/
def int_from_bytes_be (bs : List Nat) : Nat :=
  bs.foldl (fun acc b => acc * 256 + b) 0

/-- The standard base64 alphabet. -/
def b64Alphabet : List Char :=
  "ABCDEFGHIJKLMNOPQRSTUVWXYZabcdefghijklmnopqrstuvwxyz0123456789+/".data

/-- Character of the base64 alphabet at index `n` (`n < 64`). -/
def b64Char (n : Nat) : Char :=
  b64Alphabet.getD n (default : Char)

/-- Base64 encoding of a byte list, three input bytes at a time, with
`=` padding — models Python `base64.b64encode`. -/
def base64Chunks : List Nat → List Char
  | a :: b :: c :: rest =>
    let w := (a % 256) * 65536 + (b % 256) * 256 + c % 256
    b64Char (w / 262144 % 64) :: b64Char (w / 4096 % 64) ::
      b64Char (w / 64 % 64) :: b64Char (w % 64) :: base64Chunks rest
  | [a, b] =>
    let w := (a % 256) * 65536 + (b % 256) * 256
    [b64Char (w / 262144 % 64), b64Char (w / 4096 % 64), b64Char (w / 64 % 64)] ++ "=".data
  | [a] =>
    let w := (a % 256) * 65536
    [b64Char (w / 262144 % 64), b64Char (w / 4096 % 64)] ++ "==".data
  | [] => []

/-- `base64.b64encode(bs).decode()`. -/
def base64Encode (bs : List Nat) : String :=
  String.mk (base64Chunks bs)

/-- Lowercase hex digit for `n < 16`. -/
def hexDigit (n : Nat) : Char :=
  "0123456789abcdef".data.getD n (default : Char)

/-- Two lowercase hex digits of one byte — one step of Python `bytes.hex()`
(and of `uuid.UUID.hex`, which is the same digit string for 16 bytes). -/
def byteToHex (b : Nat) : List Char :=
  [hexDigit (b / 16 % 16), hexDigit (b % 16)]

/-- Character list of `bytes.hex()`. -/
def bytesToHexL (bs : List Nat) : List Char :=
  bs.foldr (fun b acc => byteToHex b ++ acc) []

/-- Python `bytes.hex()` as a string. -/
def bytesToHex (bs : List Nat) : String :=
  String.mk (bytesToHexL bs)

/-- Python truthiness of an optional string (`None` and `""` are falsy). -/
def optTruthy : Option String → Bool
  | some s => !(s == "")
  | none => false

/-- Split a character list on every non-overlapping occurrence of `sep`
(leftmost first), with enough fuel (`l.length + 1` suffices, since every
step consumes at least one character). -/
def splitOnList (sep : List Char) : Nat → List Char → List (List Char)
  | 0, l => [l]
  | fuel + 1, l =>
    match findSub l sep with
    | none => [l]
    | some i => pySlice l 0 i :: splitOnList sep fuel (l.drop (i + sep.length))

/-- Python `s.split(sep)` for a non-empty separator. -/
def pySplit (s sep : String) : List String :=
  (splitOnList sep.data (s.data.length + 1) s.data).map String.mk

/-- The whitespace characters Python's `str.strip()` removes (the ones
relevant to manifest text). -/
def spaceChars : List Char := " \t\n\r".data

/-- Python `s.strip()`. -/
def pyStrip (s : String) : String :=
  String.mk (((s.data.dropWhile spaceChars.contains).reverse.dropWhile
    spaceChars.contains).reverse)

/-- Python `splitlines` for LF-terminated text: split on a line feed and
drop the single trailing empty piece a final newline produces. -/
def pySplitlines (s : String) : List String :=
  let parts := pySplit s "\n"
  if parts.getLast? = some "" then parts.dropLast else parts

/-- `list(set(l))` for strings: the distinct elements (the Python result
order is unspecified; this model keeps the last occurrence's position). -/
def dedupKeys : List String → List String
  | [] => []
  | x :: xs =>
    let r := dedupKeys xs
    if x ∈ r then r else x :: r

theorem mem_dedupKeys (l : List String) (a : String) : a ∈ dedupKeys l ↔ a ∈ l := by
  induction l with
  | nil => simp [dedupKeys]
  | cons x xs ih =>
    by_cases hx : x ∈ dedupKeys xs
    · simp only [dedupKeys, if_pos hx, List.mem_cons]
      constructor
      · intro h; exact Or.inr (ih.mp h)
      · intro h
        rcases h with h | h
        · subst h; exact hx
        · exact ih.mpr h
    · simp only [dedupKeys, if_neg hx, List.mem_cons, ih]

theorem nodup_dedupKeys (l : List String) : (dedupKeys l).Nodup := by
  induction l with
  | nil => simp [dedupKeys]
  | cons x xs ih =>
    by_cases hx : x ∈ dedupKeys xs
    · simpa [dedupKeys, if_pos hx] using ih
    · simp only [dedupKeys, if_neg hx]
      exact List.Nodup.cons hx ih

/-! ## `findl/services/base.py` — PSSH discovery -/

/-- The 4-byte ASCII tag `pssh` (bytes of `b"pssh"`). -/
def psshTag : List Nat := [0x70, 0x73, 0x73, 0x68]

/-- `BaseExtractor._extract_pssh_from_binary` (base.py lines 30-40):

    pos = data.find(b"pssh")
    if pos >= 4:
        size = int.from_bytes(data[pos-4:pos], byteorder="big")
        if size > 0 and pos + size <= len(data) + 4:
            pssh_box = data[pos-4:pos+size-4]
            return base64.b64encode(pssh_box).decode()
    return None

The surrounding `try`/`except` never fires (every step is total), and a
`find` miss (Python `-1`) fails the `pos >= 4` test, so it is folded into
the `none` branch of `findSub`. -/
def extract_pssh_from_binary (data : List Nat) : Option String :=
  match findSub data psshTag with
  | none => none
  | some pos =>
    if pos ≥ 4 then
      let size := int_from_bytes_be (pySlice data (pos - 4) pos)
      if size > 0 ∧ pos + size ≤ data.length + 4 then
        some (base64Encode (pySlice data (pos - 4) (pos + size - 4)))
      else none
    else none

/-- Unfolded form of `extract_pssh_from_binary` with the `size` binding
inlined, used to reason by cases on the bounds checks. -/
theorem extract_pssh_from_binary_eq (data : List Nat) :
    extract_pssh_from_binary data =
      match findSub data psshTag with
      | none => none
      | some pos =>
        if pos ≥ 4 then
          if int_from_bytes_be (pySlice data (pos - 4) pos) > 0 ∧
              pos + int_from_bytes_be (pySlice data (pos - 4) pos) ≤ data.length + 4 then
            some (base64Encode (pySlice data (pos - 4)
              (pos + int_from_bytes_be (pySlice data (pos - 4) pos) - 4)))
          else none
        else none := rfl

/-- `BaseExtractor.parse_pssh_from_init` — public alias (base.py lines 26-28). -/
def parse_pssh_from_init (data : List Nat) : Option String :=
  extract_pssh_from_binary data

/-- Network / regex environment for `get_pssh_from_manifest`. The HTTP
fetches and the `re`-based scanners of base.py are abstracted as functions
of their textual inputs; `none` for a fetch means the request raised.
`hlsKeyScan` returns `group(1)` of the `#EXT-X-(SESSION-)KEY` data-URI
regex (base.py line 59), `dashPatternScan` the stripped first match of the
XML/JSON pattern list (lines 74-84), `initMapScan` `group(1)` of the
`#EXT-X-MAP:URI` regex (line 102), `resolveResource` the `resource` query
parameter lookup of `_resolve_url` (lines 18-24). -/
structure NetEnv where
  fetch : String → Option (Nat × String)
  initFetch : String → Option (Nat × List Nat)
  hlsKeyScan : String → Option String
  dashPatternScan : String → Option String
  initMapScan : String → Option String
  urljoin : String → String → String
  resolveResource : String → Option String

/-- `BaseExtractor._resolve_url` (base.py lines 18-24). -/
def resolve_url (env : NetEnv) (url : String) : String :=
  if containsStr url "gnsnpaw.com" || containsStr url "decision" then
    match env.resolveResource url with
    | some r => r
    | none => url
  else url

/-- The master-playlist marker. -/
def streamInfTag : String := "#EXT-X-STREAM-INF"

/-- Child variant URLs of a master playlist (base.py lines 90-94): every
line containing `#EXT-X-STREAM-INF` that is followed by another line
contributes `urljoin(url, next_line.strip())`, in listed order. -/
def childUrls (env : NetEnv) (base : String) : List String → List String
  | a :: b :: rest =>
    if containsStr a streamInfTag then
      env.urljoin base (pyStrip b) :: childUrls env base (b :: rest)
    else childUrls env base (b :: rest)
  | _ => []

/-- Inline extraction steps 1-3 applied to one fetched document
(base.py lines 55-84): the HLS key directive (taking the part of the
payload before the first comma, stripped), then the literal
`<cenc:pssh>` split, then the DASH/JSON pattern list. -/
def inlineOf (env : NetEnv) (content : String) : Option String :=
  match env.hlsKeyScan content with
  | some m => some (pyStrip ((pySplit m ",").getD 0 ""))
  | none =>
    if containsStr content "<cenc:pssh>" then
      some (pyStrip ((pySplit ((pySplit content "<cenc:pssh>").getD 1 "")
        "</cenc:pssh>").getD 0 ""))
    else
      match env.dashPatternScan content with
      | some p => some (pyStrip p)
      | none => none

/-- Init-segment fallback (base.py lines 102-110): resolve the
`#EXT-X-MAP` URI, fetch it, and scan the binary body. Returns the result
and the list of init URLs requested. -/
def initScan (env : NetEnv) (url content : String) : Option String × List String :=
  match env.initMapScan content with
  | some initRef =>
    let iurl := env.urljoin url initRef
    match env.initFetch iurl with
    | none => (none, [iurl])
    | some (st, body) =>
      if st = 200 then (extract_pssh_from_binary body, [iurl])
      else (none, [iurl])
  | none => (none, [])

/-- The child-playlist loop (base.py lines 97-99), generic in the scanner
applied to each child: recurse into each child in order and return the
first truthy result (Python `if found: return found` treats the empty
string as a miss), together with the URLs requested along the way. -/
def scanChildrenWith (g : String → Option String × List String) :
    List String → Option String × List String
  | [] => (none, [])
  | u :: rest =>
    let r := g u
    if optTruthy r.1 then r
    else
      let r2 := scanChildrenWith g rest
      (r2.1, r.2 ++ r2.2)

/-- `BaseExtractor.get_pssh_from_manifest` (base.py lines 42-114), paired
with the list of URLs requested, in request order. The fuel argument
models the Python call stack: the source recursion is unbounded, and on
stack exhaustion the interpreter's `RecursionError` is swallowed by the
`except` at line 112, yielding `None`. Any fetch exception or non-200
response likewise yields `none` for that document. -/
def get_pssh_from_manifest (env : NetEnv) : Nat → String → Option String × List String
  | 0, _ => (none, [])
  | fuel + 1, url0 =>
    let url := resolve_url env url0
    match env.fetch url with
    | none => (none, [url])
    | some (status, content) =>
      if status ≠ 200 then (none, [url])
      else
        match inlineOf env content with
        | some v => (some v, [url])
        | none =>
          let c :=
            if containsStr content streamInfTag then
              scanChildrenWith (fun u => get_pssh_from_manifest env fuel u)
                ((childUrls env url (pySplitlines content)).take 5)
            else (none, [])
          match c.1 with
          | some v => (some v, url :: c.2)
          | none =>
            let i := initScan env url content
            (i.1, url :: c.2 ++ i.2)

/-! ## `findl/core/drm.py` — CDM sessions, strategy dispatch, key aggregation -/

/-- A key reported by the injected CDM (`pywidevine` `Key`): its type tag
(`"CONTENT"`, `"SIGNING"`, ...), the 16 bytes behind `key.kid` (a UUID,
whose `.hex` is the same 32-digit string as `bytes.hex()`), and the bytes
of `key.key`. -/
structure CdmKey where
  type : String
  kid : List Nat
  key : List Nat
deriving DecidableEq

/-- Severities of the `logging` calls that drm.py makes. -/
inductive LogLevel where
  | debug
  | info
  | error
deriving DecidableEq

/-- Observable events of one `get_keys` call: invocations of the injected
CDM capability (open / get_license_challenge / parse_license / close, with
the session id) and logging calls (with their severity and call site). -/
inductive Event where
  | cdmOpen : Nat → Event
  | cdmChallenge : Nat → String → Event
  | cdmParse : Nat → Event
  | cdmClose : Nat → Event
  | log : LogLevel → String → Event
deriving DecidableEq

/-- Outcome of one license POST whose exceptions would escape the handler
(`_handle_drmtoday` line 94 and `_handle_standard` line 142 let `requests`
exceptions propagate to the per-PSSH `except` in `get_keys`): either the
request raised, or a response arrived with the given status code, and —
if the body were handed to `cdm.parse_license` — whether that parse
succeeds and which keys `cdm.get_keys` then reports. -/
inductive AttemptResult where
  | raise : AttemptResult
  | response : Nat → Bool → List CdmKey → AttemptResult
deriving DecidableEq

/-- Outcome of one Axinom attempt for a given (PSSH, token) pair.
`raiseOuter` is an exception escaping `_handle_axinom` itself (caught by
the per-token `except` at drm.py lines 66-68); `raiseTransport` is a
`requests` exception inside the handler's own `try` (lines 129-136),
which the handler logs and converts to no keys. -/
inductive AxinomOutcome where
  | raiseOuter : AxinomOutcome
  | raiseTransport : AxinomOutcome
  | response : Nat → Bool → List CdmKey → AxinomOutcome
deriving DecidableEq

/-- Environment of one `get_keys` call: what the injected CDM and the
license servers do for each candidate PSSH (and, for Axinom, each token).
`psshOk` is whether the `PSSH(pssh_data)` constructor succeeds, and
`challengeOk` whether `cdm.get_license_challenge` returns normally. -/
structure DrmEnv where
  psshOk : String → Bool
  challengeOk : String → Bool
  drmtoday : String → AttemptResult
  axinom : String → Option String → AxinomOutcome
  standard : String → AttemptResult

/-- The caller-supplied `headers` keyword argument: either a well-formed
mapping (its contents reach the license server and are abstracted into
the response environment) or a value on which `dict.update` raises at
drm.py line 32. -/
inductive HeadersArg where
  | good
  | bad
deriving DecidableEq

/-- The keyword arguments of `get_keys` that the model tracks. -/
structure Kwargs where
  headers : Option HeadersArg
  drm_token : Option String
  drm_tokens : Option (List String)
  asset_id : Option String
deriving DecidableEq

/-- Log-site names used in the trace. -/
def siteSending : String := "axinom_sending"
def siteTokenFailed : String := "axinom_token_failed"
def siteRejected : String := "axinom_rejected"
def siteRequestFailed : String := "axinom_request_failed"
def siteKeysAcquired : String := "axinom_keys_acquired"
def sitePsshFailed : String := "pssh_failed"
def siteLicenseParse : String := "license_parse_error"

/-- Rendering of one CDM key (drm.py line 154): `f"{key.kid.hex}:{key.key.hex()}"`. -/
def renderKey (k : CdmKey) : String :=
  bytesToHex k.kid ++ ":" ++ bytesToHex k.key

/-- `DRMHandler._parse_license` (drm.py lines 147-157): parse the license
body in the session, keep only keys whose `type` is `"CONTENT"`, render
each as `hex(kid):hex(key)`; a parse exception is caught, logged at error
severity, and yields no keys. `parseOk`/`keys` come from the environment's
description of the response body. -/
def parse_license (sid : Nat) (parseOk : Bool) (keys : List CdmKey) :
    List String × List Event :=
  if parseOk then
    ((keys.filter (fun k => k.type == "CONTENT")).map renderKey, [Event.cdmParse sid])
  else
    ([], [Event.cdmParse sid, Event.log LogLevel.error siteLicenseParse])

/-- One Axinom attempt, as observed from the token loop in `get_keys`
(drm.py lines 58-68 together with `_handle_axinom`, lines 99-138): keys
produced and events emitted. The handler logs "sending" at info before
the POST; a non-200 response is logged at error ("rejected"); a transport
exception is caught inside the handler and logged at error; an exception
escaping the handler is caught by the per-token `except` and logged at
debug. -/
def axAttempt (sid : Nat) : AxinomOutcome → List String × List Event
  | AxinomOutcome.raiseOuter => ([], [Event.log LogLevel.debug siteTokenFailed])
  | AxinomOutcome.raiseTransport =>
    ([], [Event.log LogLevel.info siteSending, Event.log LogLevel.error siteRequestFailed])
  | AxinomOutcome.response st pOk ks =>
    if st = 200 then
      let pr := parse_license sid pOk ks
      (pr.1, Event.log LogLevel.info siteSending :: pr.2)
    else
      ([], [Event.log LogLevel.info siteSending, Event.log LogLevel.error siteRejected])

/-- The token-fallback loop of the Axinom branch (drm.py lines 58-68):
try every token in order; on the first attempt that returns keys, log
"keys acquired" at info and stop; otherwise keep iterating. -/
def tokenLoop (env : DrmEnv) (sid : Nat) (pssh : String) :
    List (Option String) → List String × List Event
  | [] => ([], [])
  | t :: rest =>
    let a := axAttempt sid (env.axinom pssh t)
    if a.1 = [] then
      let r := tokenLoop env sid pssh rest
      (r.1, a.2 ++ r.2)
    else
      (a.1, a.2 ++ [Event.log LogLevel.info siteKeysAcquired])

/-- `_handle_drmtoday` / `_handle_standard` as observed from `get_keys`:
a `requests` exception propagates (`Except.error`); a 200 response is
parsed; any other status yields no keys (drm.py lines 83-97 and 140-145). -/
def stdAttempt (sid : Nat) : AttemptResult → Except Unit (List String) × List Event
  | AttemptResult.raise => (Except.error (), [])
  | AttemptResult.response st pOk ks =>
    if st = 200 then
      let pr := parse_license sid pOk ks
      (Except.ok pr.1, pr.2)
    else (Except.ok [], [])

/-- Strategy dispatch plus the result of the chosen branch (drm.py lines
52-71): substring tests against the license URL, in source order. -/
def dispatchBranch (env : DrmEnv) (sid : Nat) (license_url : String)
    (tokens : List (Option String)) (pssh : String) :
    Except Unit (List String) × List Event :=
  if containsStr license_url "drmtoday" then
    stdAttempt sid (env.drmtoday pssh)
  else if containsStr license_url "axprod.net" || containsStr license_url "ruutu" then
    let r := tokenLoop env sid pssh tokens
    (Except.ok r.1, r.2)
  else
    stdAttempt sid (env.standard pssh)

/-- One iteration of the per-PSSH loop body (drm.py lines 47-78),
including its `try`/`except`: construct the `PSSH` object, request a
challenge, dispatch on the license URL; any exception is caught, logged
at error severity, and contributes no keys. -/
def processPssh (env : DrmEnv) (sid : Nat) (license_url : String)
    (tokens : List (Option String)) (pssh : String) : List String × List Event :=
  if env.psshOk pssh = false then
    ([], [Event.log LogLevel.error sitePsshFailed])
  else if env.challengeOk pssh = false then
    ([], [Event.cdmChallenge sid pssh, Event.log LogLevel.error sitePsshFailed])
  else
    let br := dispatchBranch env sid license_url tokens pssh
    match br.1 with
    | Except.error _ =>
      ([], Event.cdmChallenge sid pssh :: br.2 ++ [Event.log LogLevel.error sitePsshFailed])
    | Except.ok ks => (ks, Event.cdmChallenge sid pssh :: br.2)

/-- The candidate loop of `get_keys` (drm.py lines 47-78): process the
candidates in order, extending the accumulator, and stop as soon as the
accumulator is non-empty (`if found_keys: break`, line 73). -/
def psshLoop (env : DrmEnv) (sid : Nat) (license_url : String)
    (tokens : List (Option String)) (acc : List String) :
    List String → List String × List Event
  | [] => (acc, [])
  | p :: rest =>
    let r := processPssh env sid license_url tokens p
    let acc2 := acc ++ r.1
    if acc2 = [] then
      let r2 := psshLoop env sid license_url tokens acc2 rest
      (r2.1, r.2 ++ r2.2)
    else (acc2, r.2)

/-- Token-list preparation (drm.py lines 40-45):

    tokens = kwargs.get("drm_tokens") or []
    if drm_token and drm_token not in tokens: tokens.append(drm_token)
    if not tokens and drm_token: tokens = [drm_token]
    if not tokens: tokens = [None]

When `drm_tokens` is a non-empty list, the first line aliases it, so the
`append` on the second line mutates the caller's list in place. The first
component is the token list the loop uses; the second is the caller's
`drm_tokens` value after the call. The third source line is unreachable
when it would matter (a truthy `drm_token` has just been appended), but is
kept for fidelity. -/
def buildTokens (drm_tokens : Option (List String)) (drm_token : Option String) :
    List (Option String) × Option (List String) :=
  let base : List String :=
    match drm_tokens with
    | some l => l
    | none => []
  let t1 : List String :=
    match drm_token with
    | some t => if t ≠ "" ∧ t ∉ base then base ++ [t] else base
    | none => base
  let callerAfter : Option (List String) :=
    match drm_tokens with
    | some l => if l = [] then some l else some t1
    | none => none
  let t2 : List String :=
    if t1 = [] then
      match drm_token with
      | some t => if t ≠ "" then [t] else []
      | none => []
    else t1
  let used : List (Option String) := if t2 = [] then [none] else t2.map some
  (used, callerAfter)

deriving instance DecidableEq for Except

/-- The observable outcome of one `DRMHandler.get_keys` call: its return
value (or the escaped exception), the CDM/log event trace, and the
caller's `drm_tokens` list as it stands after the call. -/
structure GetKeysOut where
  result : Except Unit (List String)
  trace : List Event
  tokensAfter : Option (List String)
deriving DecidableEq

/-- `DRMHandler.get_keys` (drm.py lines 22-81). An empty candidate list
returns `[]` before the session is opened (line 27). The session is
opened (line 29), the default headers are copied and updated with the
caller's headers (lines 31-32) — a malformed `headers` value makes
`dict.update` raise, and nothing catches it, so the call aborts with the
session still open. Then the token list is prepared, the candidate loop
runs, the session is closed (line 80) and `list(set(found_keys))` is
returned. The session id returned by `cdm.open` is modelled as `0`. -/
def get_keys (env : DrmEnv) (psshs : List String) (license_url : String)
    (kw : Kwargs) : GetKeysOut :=
  if psshs = [] then ⟨Except.ok [], [], kw.drm_tokens⟩
  else
    let sid := 0
    if kw.headers = some HeadersArg.bad then
      ⟨Except.error (), [Event.cdmOpen sid], kw.drm_tokens⟩
    else
      let tk := buildTokens kw.drm_tokens kw.drm_token
      let lp := psshLoop env sid license_url tk.1 [] psshs
      ⟨Except.ok (dedupKeys lp.1),
       Event.cdmOpen sid :: lp.2 ++ [Event.cdmClose sid],
       tk.2⟩

/-! ## Claims about binary PSSH extraction (C2, C10) -/

/-- Binary extraction as claim C2 words it: locate the tag, read the 4
preceding bytes as a big-endian box length, and whenever `offset-4 ≥ 0`
and `offset-4+length ≤ |buffer|` return the base64 encoding of exactly
`[offset-4, offset-4+length)`. (This reading does not require the
declared length to be positive.) -/
def extract_pssh_claim_C2 (data : List Nat) : Option String :=
  match findSub data psshTag with
  | none => none
  | some pos =>
    if pos ≥ 4 ∧
        pos - 4 + int_from_bytes_be (pySlice data (pos - 4) pos) ≤ data.length then
      some (base64Encode (pySlice data (pos - 4)
        (pos - 4 + int_from_bytes_be (pySlice data (pos - 4) pos))))
    else none

/-- Binary extraction as the amended claim words it: as `extract_pssh_claim_C2`,
but additionally requiring the declared box length to be positive. -/
def extract_pssh_claim_C2_amended (data : List Nat) : Option String :=
  match findSub data psshTag with
  | none => none
  | some pos =>
    if pos ≥ 4 ∧ 0 < int_from_bytes_be (pySlice data (pos - 4) pos) ∧
        pos - 4 + int_from_bytes_be (pySlice data (pos - 4) pos) ≤ data.length then
      some (base64Encode (pySlice data (pos - 4)
        (pos - 4 + int_from_bytes_be (pySlice data (pos - 4) pos))))
    else none

/-- A buffer whose (first) `pssh` tag sits at offset 4 with a declared
box length of 0: all of claim C2's stated bounds conditions hold, yet the
code returns no candidate. -/
def exC2 : List Nat := [0, 0, 0, 0] ++ psshTag

/-- C2 counterexample: on `exC2` the tag is at offset 4, the declared
big-endian length is 0, so the claim's conditions `offset-4 ≥ 0` and
`offset-4+length ≤ |buffer|` hold and the claim demands the base64 of the
empty range (`some ""`), but `_extract_pssh_from_binary` — which also
requires `size > 0` — returns `none`. -/
theorem C2_counterexample :
    findSub exC2 psshTag = some 4 ∧
    int_from_bytes_be (pySlice exC2 0 4) = 0 ∧
    extract_pssh_claim_C2 exC2 = some "" ∧
    extract_pssh_from_binary exC2 = none := by decide

/-- C2 (amended): for every byte buffer, binary PSSH extraction locates
the first occurrence of the tag `pssh`, reads the 4 bytes before it as a
big-endian box length, and returns the base64 encoding of exactly the
bytes `[offset-4, offset-4+length)` precisely when `offset-4 ≥ 0`, the
declared length is positive, and `offset-4+length ≤ |buffer|`; in every
other case (including a missing tag) it returns no candidate, and it
never raises (it is a total function). -/
theorem C2_amended (data : List Nat) :
    extract_pssh_from_binary data = extract_pssh_claim_C2_amended data := by
  rw [extract_pssh_from_binary_eq]
  unfold extract_pssh_claim_C2_amended
  cases hf : findSub data psshTag with
  | none => rfl
  | some pos =>
    dsimp only
    by_cases h4 : pos ≥ 4
    · by_cases hsz : 0 < int_from_bytes_be (pySlice data (pos - 4) pos)
      · by_cases hb : pos - 4 + int_from_bytes_be (pySlice data (pos - 4) pos) ≤ data.length
        · rw [if_pos h4, if_pos ⟨hsz, by omega⟩, if_pos ⟨h4, hsz, hb⟩]
          have he : pos + int_from_bytes_be (pySlice data (pos - 4) pos) - 4 =
              pos - 4 + int_from_bytes_be (pySlice data (pos - 4) pos) := by omega
          rw [he]
        · rw [if_pos h4, if_neg (fun hc => hb (by omega)),
            if_neg (fun hc => hb hc.2.2)]
      · rw [if_pos h4, if_neg (fun hc => hsz hc.1), if_neg (fun hc => hsz hc.2.1)]
    · rw [if_neg h4, if_neg (fun hc => h4 hc.1)]

/-- C10: binary PSSH extraction considers only the first occurrence of
the tag: if `data.find` returns an offset that fails validation
(offset `< 4`, declared length `0`, or box overflowing the buffer), the
result is `none` — regardless of any later, valid `pssh` box. -/
theorem C10_first_occurrence_only (data : List Nat) (pos : Nat)
    (hf : findSub data psshTag = some pos)
    (hbad : pos < 4 ∨ int_from_bytes_be (pySlice data (pos - 4) pos) = 0 ∨
      data.length + 4 < pos + int_from_bytes_be (pySlice data (pos - 4) pos)) :
    extract_pssh_from_binary data = none := by
  rw [extract_pssh_from_binary_eq, hf]
  dsimp only
  split_ifs with h1 h2
  · exfalso
    obtain ⟨h2a, h2b⟩ := h2
    rcases hbad with h | h | h <;> omega
  · rfl
  · rfl

/-- A buffer whose first `pssh` tag is at offset 0 (invalid: no room for
a length field) while a fully valid `pssh` box starts at offset 4. -/
def exC10 : List Nat := psshTag ++ [0, 0, 0, 12] ++ psshTag ++ [9, 9, 9, 9]

/-- C10 witness: on `exC10` the first tag occurrence (offset 0) is
invalid and extraction returns `none`, even though the suffix from
offset 4 is a buffer on which extraction succeeds. -/
theorem C10_witness :
    findSub exC10 psshTag = some 0 ∧
    extract_pssh_from_binary exC10 = none ∧
    extract_pssh_from_binary (exC10.drop 4) = some "AAAADHBzc2gJCQkJ" :=
  ⟨by decide,
   C10_first_occurrence_only exC10 0 (by decide) (Or.inl (by decide)),
   by decide⟩

/-! ## Claim C8 — empty candidate list -/

/-- C8: with an empty PSSH candidate list, `get_keys` returns `[]`
immediately, produces no events at all — in particular the injected
CDM's `open` is never invoked — and leaves the caller's token list
untouched, regardless of the license URL and context. -/
theorem C8_empty_candidates (env : DrmEnv) (url : String) (kw : Kwargs) :
    get_keys env [] url kw = ⟨Except.ok [], [], kw.drm_tokens⟩ ∧
    ∀ sid : Nat, Event.cdmOpen sid ∉ (get_keys env [] url kw).trace := by
  refine ⟨rfl, fun sid => ?_⟩
  show Event.cdmOpen sid ∉ ([] : List Event)
  simp

/-! ## Claim C7 — strategy selection -/

/-- C7: strategy selection in `get_keys` is by substring match on the
license URL, rules checked in this fixed order with the first match
winning: Provider A (DRMToday) when the URL contains `"drmtoday"`, else
Provider B (Axinom) when it contains `"axprod.net"` or `"ruutu"`, else
the generic strategy. -/
theorem C7_strategy_selection (env : DrmEnv) (sid : Nat) (url : String)
    (tokens : List (Option String)) (pssh : String) :
    (containsStr url "drmtoday" = true →
      dispatchBranch env sid url tokens pssh = stdAttempt sid (env.drmtoday pssh)) ∧
    (containsStr url "drmtoday" = false →
      (containsStr url "axprod.net" = true ∨ containsStr url "ruutu" = true) →
      dispatchBranch env sid url tokens pssh =
        (Except.ok (tokenLoop env sid pssh tokens).1, (tokenLoop env sid pssh tokens).2)) ∧
    (containsStr url "drmtoday" = false → containsStr url "axprod.net" = false →
      containsStr url "ruutu" = false →
      dispatchBranch env sid url tokens pssh = stdAttempt sid (env.standard pssh)) := by
  refine ⟨fun h => ?_, fun h1 h2 => ?_, fun h1 h2 h3 => ?_⟩
  · simp [dispatchBranch, h]
  · rcases h2 with h2 | h2 <;> simp [dispatchBranch, h1, h2]
  · simp [dispatchBranch, h1, h2, h3]

/-- Environment for the C7 witness (its license responses are never
reached; only the dispatch decision is at stake). -/
def envC7 : DrmEnv :=
  ⟨fun _ => true, fun _ => true,
   fun _ => AttemptResult.response 403 true [],
   fun _ _ => AxinomOutcome.raiseOuter,
   fun _ => AttemptResult.raise⟩

/-- A license URL containing both the DRMToday and the Ruutu fragments. -/
def urlC7 : String := "https://lic.drmtoday.ruutu.fi/path"

/-- C7 witness: a URL containing both `"drmtoday"` and `"ruutu"` is
dispatched to the Provider-A (DRMToday) strategy — the first matching
rule wins. -/
theorem C7_witness :
    containsStr urlC7 "drmtoday" = true ∧
    containsStr urlC7 "ruutu" = true ∧
    dispatchBranch envC7 0 urlC7 [] "p" = stdAttempt 0 (envC7.drmtoday "p") :=
  ⟨by decide, by decide, (C7_strategy_selection envC7 0 urlC7 [] "p").1 (by decide)⟩

/-! ## Claim C1 — session closure -/

/-- An environment whose license servers always fail (the counterexample
never reaches them: the call aborts while merging headers). -/
def envC1 : DrmEnv :=
  ⟨fun _ => true, fun _ => true,
   fun _ => AttemptResult.raise,
   fun _ _ => AxinomOutcome.raiseOuter,
   fun _ => AttemptResult.raise⟩

/-- Keyword arguments whose `headers` value makes `dict.update` raise at
drm.py line 32 (e.g. a non-mapping object). -/
def kwC1bad : Kwargs := ⟨some HeadersArg.bad, none, none, none⟩

/-- Well-formed keyword arguments for the C1 witness. -/
def kwC1good : Kwargs := ⟨none, none, none, none⟩

/-- C1 counterexample: with a non-empty candidate list and a `headers`
keyword argument on which `dict.update` raises, `get_keys` opens the CDM
session (line 29) and then lets the exception escape from line 32 —
before the per-PSSH loop's exception handler applies — with no `close`
event anywhere in the trace: the session is not closed on this exit
path, because the source has no try/finally around the loop. -/
theorem C1_counterexample :
    get_keys envC1 ["p1"] "https://lic.example" kwC1bad =
      ⟨Except.error (), [Event.cdmOpen 0], none⟩ ∧
    Event.cdmClose 0 ∉ (get_keys envC1 ["p1"] "https://lic.example" kwC1bad).trace := by
  refine ⟨by decide, by decide⟩

/-- Whether an `Except` value is a normal return. -/
def isOkE {α : Type} : Except Unit α → Bool
  | Except.ok _ => true
  | Except.error _ => false

/-- C1 (amended): for every invocation of `get_keys` with a non-empty
candidate list, if the pre-loop context preparation does not raise (the
caller-supplied `headers` value is absent or a well-formed mapping), the
call returns normally, the trace starts with the CDM `open` and ends
with the CDM `close` of the same session: exceptions raised while
processing individual candidates are caught inside the loop and cannot
prevent closure — but an exception raised while merging caller headers
(before the loop) escapes with the session left open, as the
counterexample shows. -/
theorem C1_amended (env : DrmEnv) (psshs : List String) (url : String)
    (kw : Kwargs) (hne : psshs ≠ [])
    (hH : kw.headers ≠ some HeadersArg.bad) :
    isOkE (get_keys env psshs url kw).result = true ∧
    (get_keys env psshs url kw).trace.head? = some (Event.cdmOpen 0) ∧
    (get_keys env psshs url kw).trace.getLast? = some (Event.cdmClose 0) := by
  have hlast : ∀ l : List Event,
      (Event.cdmOpen 0 :: l ++ [Event.cdmClose 0]).getLast? = some (Event.cdmClose 0) := by
    intro l
    rw [List.getLast?_append_cons]
    rfl
  unfold get_keys
  rw [if_neg hne, if_neg hH]
  exact ⟨rfl, rfl, hlast _⟩

/-- C1 witness: a concrete well-formed call on which the amended claim's
hypotheses hold — the result is a normal return and the trace runs from
`open` to `close`. -/
theorem C1_witness :
    isOkE (get_keys envC1 ["p1"] "https://lic.example" kwC1good).result = true ∧
    (get_keys envC1 ["p1"] "https://lic.example" kwC1good).trace.head? =
      some (Event.cdmOpen 0) ∧
    (get_keys envC1 ["p1"] "https://lic.example" kwC1good).trace.getLast? =
      some (Event.cdmClose 0) :=
  C1_amended envC1 ["p1"] "https://lic.example" kwC1good (by decide) (by decide)

/-! ## Claim C6 — caller-supplied collections -/

/-- An environment for the C6 theorems (generic strategy, server rejects). -/
def envC6 : DrmEnv :=
  ⟨fun _ => true, fun _ => true,
   fun _ => AttemptResult.raise,
   fun _ _ => AxinomOutcome.raiseOuter,
   fun _ => AttemptResult.response 403 true []⟩

/-- Keyword arguments with a non-empty caller token list and a distinct
single token. -/
def kwC6 : Kwargs := ⟨none, some "t2", some ["t1"], none⟩

/-- C6 counterexample: after a `get_keys` call with caller-supplied
`drm_tokens = ["t1"]` and `drm_token = "t2"`, the caller's list has
become `["t1", "t2"]` — line 41 aliases the caller's list and line 43's
`tokens.append(drm_token)` mutates it in place, so the acquisition
context is not read-only to the subsystem. -/
theorem C6_counterexample :
    (get_keys envC6 ["p1"] "https://lic.example" kwC6).tokensAfter = some ["t1", "t2"] ∧
    kwC6.drm_tokens = some ["t1"] ∧
    (get_keys envC6 ["p1"] "https://lic.example" kwC6).tokensAfter ≠ kwC6.drm_tokens := by
  refine ⟨by decide, by decide, by decide⟩

/-- The caller's `drm_tokens` list after a `get_keys` call, as the
amended claim words it: it is unchanged unless the call has a non-empty
candidate list, the header merge does not raise, the caller's list is
non-empty and `drm_token` is a non-empty string not already in it — in
which case `drm_token` has been appended in place. -/
def tokensAfterSpec (psshs : List String) (kw : Kwargs) : Option (List String) :=
  if psshs = [] then kw.drm_tokens
  else if kw.headers = some HeadersArg.bad then kw.drm_tokens
  else
    match kw.drm_tokens, kw.drm_token with
    | some l, some t =>
      if l ≠ [] ∧ t ≠ "" ∧ t ∉ l then some (l ++ [t]) else some l
    | some l, none => some l
    | none, _ => none

/-- C6 (amended): of the caller-supplied collections, the PSSH list is
only iterated, the header mapping is merged into a fresh copy of the
defaults (line 31) and the cookie set is only forwarded, so they are
unchanged; the caller's ordered token list, however, is mutated in
place: exactly when the candidate list is non-empty, the header merge
does not raise, the caller passed a non-empty `drm_tokens` list, and
`drm_token` is a non-empty string not already in that list, `drm_token`
is appended to the caller's list; in every other case it too is
unchanged. -/
theorem C6_amended (env : DrmEnv) (psshs : List String) (url : String) (kw : Kwargs) :
    (get_keys env psshs url kw).tokensAfter = tokensAfterSpec psshs kw := by
  unfold get_keys tokensAfterSpec
  by_cases hne : psshs = []
  · rw [if_pos hne, if_pos hne]
  · rw [if_neg hne, if_neg hne]
    by_cases hH : kw.headers = some HeadersArg.bad
    · rw [if_pos hH, if_pos hH]
    · rw [if_neg hH, if_neg hH]
      show (buildTokens kw.drm_tokens kw.drm_token).2 = _
      unfold buildTokens
      cases ht : kw.drm_tokens with
      | none => cases kw.drm_token <;> rfl
      | some l =>
        cases hd : kw.drm_token with
        | none =>
          dsimp only
          split_ifs <;> rfl
        | some t =>
          dsimp only
          by_cases hl : l = []
          · rw [if_pos hl]
            rw [if_neg]
            intro hc
            exact hc.1 hl
          · rw [if_neg hl]
            by_cases hta : t ≠ "" ∧ t ∉ l
            · rw [if_pos hta, if_pos ⟨hl, hta.1, hta.2⟩]
            · rw [if_neg hta, if_neg (fun hc => hta ⟨hc.2.1, hc.2.2⟩)]

/-! ## Claim C4 — Provider-B token iteration -/

/-- C4 (amended): for every Provider-B token list split as
`ts1 ++ t :: ts2` where every attempt in `ts1` yields no keys and the
attempt for `t` yields keys, the token loop attempts the tokens strictly
in list order, stops at `t` — the tokens of `ts2` contribute nothing to
the trace — and returns `t`'s keys; no failing attempt aborts the
iteration or propagates to the caller (the loop is a total function).
An attempt yields keys exactly when its response has HTTP status 200 and
license parsing retains at least one content key. An exception escaping
an attempt is logged at debug severity, while a non-200 response and a
transport error are logged at error severity by the Axinom handler. -/
theorem C4_token_iteration (env : DrmEnv) (sid : Nat) (pssh : String)
    (ts1 : List (Option String)) (t : Option String) (ts2 : List (Option String))
    (hfail : ∀ u ∈ ts1, (axAttempt sid (env.axinom pssh u)).1 = [])
    (hsucc : (axAttempt sid (env.axinom pssh t)).1 ≠ []) :
    tokenLoop env sid pssh (ts1 ++ t :: ts2) =
      ((axAttempt sid (env.axinom pssh t)).1,
        (ts1.map fun u => (axAttempt sid (env.axinom pssh u)).2).flatten ++
          ((axAttempt sid (env.axinom pssh t)).2 ++
            [Event.log LogLevel.info siteKeysAcquired])) ∧
    (∀ st pOk ks, (axAttempt sid (AxinomOutcome.response st pOk ks)).1 ≠ [] ↔
      (st = 200 ∧ (parse_license sid pOk ks).1 ≠ [])) ∧
    (axAttempt sid AxinomOutcome.raiseOuter).2 =
      [Event.log LogLevel.debug siteTokenFailed] ∧
    (∀ st pOk ks, st ≠ 200 → axAttempt sid (AxinomOutcome.response st pOk ks) =
      ([], [Event.log LogLevel.info siteSending, Event.log LogLevel.error siteRejected])) ∧
    (axAttempt sid AxinomOutcome.raiseTransport).2 =
      [Event.log LogLevel.info siteSending, Event.log LogLevel.error siteRequestFailed] := by
  refine ⟨?_, ?_, rfl, ?_, rfl⟩
  · induction ts1 with
    | nil =>
      simp only [List.nil_append, List.map_nil, List.flatten, tokenLoop]
      rw [if_neg hsucc]
    | cons u us ih =>
      have hu : (axAttempt sid (env.axinom pssh u)).1 = [] := hfail u (by simp)
      have ih2 := ih (fun x hx => hfail x (by simp [hx]))
      simp only [List.cons_append, tokenLoop]
      rw [if_pos hu]
      simp only [List.append_eq]
      rw [ih2]
      simp
  · intro st pOk ks
    unfold axAttempt
    by_cases h : st = 200
    · simp [h]
    · simp [h]
  · intro st pOk ks h
    unfold axAttempt
    dsimp only
    rw [if_neg h]

/-- Environment for the C4 counterexample: token `tA` gets an HTTP 403,
token `tB` succeeds. -/
def envC4c : DrmEnv :=
  ⟨fun _ => true, fun _ => true,
   fun _ => AttemptResult.raise,
   fun _ t =>
     if t == some "tA" then AxinomOutcome.response 403 true []
     else AxinomOutcome.response 200 true [⟨"CONTENT", [1], [2]⟩],
   fun _ => AttemptResult.raise⟩

/-- C4 counterexample: a failing token attempt whose response is non-200
is logged at error severity (by the handler's rejection branch, drm.py
line 134), not at low severity — no debug-level failure log appears for
it — even though iteration over the remaining tokens does continue and
the call still succeeds on the next token. This refutes the claim's
"a failing token attempt (exception or non-200) is logged at low
severity". -/
theorem C4_counterexample :
    tokenLoop envC4c 0 "p" [some "tA", some "tB"] =
      (["01:02"],
       [Event.log LogLevel.info siteSending, Event.log LogLevel.error siteRejected,
        Event.log LogLevel.info siteSending, Event.cdmParse 0,
        Event.log LogLevel.info siteKeysAcquired]) ∧
    Event.log LogLevel.error siteRejected ∈ (tokenLoop envC4c 0 "p" [some "tA", some "tB"]).2 ∧
    Event.log LogLevel.debug siteTokenFailed ∉
      (tokenLoop envC4c 0 "p" [some "tA", some "tB"]).2 := by
  refine ⟨by decide, by decide, by decide⟩

/-- Environment for the C4 witness: three tokens — the first attempt
raises, the second is rejected with 403, the third succeeds. -/
def envC4w : DrmEnv :=
  ⟨fun _ => true, fun _ => true,
   fun _ => AttemptResult.raise,
   fun _ t =>
     if t == some "t1" then AxinomOutcome.raiseOuter
     else if t == some "t2" then AxinomOutcome.response 403 true []
     else AxinomOutcome.response 200 true [⟨"CONTENT", [1], [2]⟩],
   fun _ => AttemptResult.raise⟩

/-- C4 witness: with three candidate tokens of which only the third
succeeds, the loop returns the third token's keys and the first two
failures are logged (the exception at debug, the rejection at error)
without aborting the iteration. -/
theorem C4_witness :
    tokenLoop envC4w 0 "p" [some "t1", some "t2", some "t3"] =
      (["01:02"],
       [Event.log LogLevel.debug siteTokenFailed,
        Event.log LogLevel.info siteSending, Event.log LogLevel.error siteRejected,
        Event.log LogLevel.info siteSending, Event.cdmParse 0,
        Event.log LogLevel.info siteKeysAcquired]) := by
  have h := (C4_token_iteration envC4w 0 "p" [some "t1", some "t2"] (some "t3") []
    (by decide) (by decide)).1
  rw [show [some "t1", some "t2"] ++ some "t3" :: ([] : List (Option String)) =
    [some "t1", some "t2", some "t3"] from rfl] at h
  rw [h]
  decide

/-! ## Claim C5 — candidate iteration and deduplication -/

/-- Loop lemma for `psshLoop`: started with an empty accumulator, it
processes the failing prefix in order and stops at the first candidate
that contributes keys; the candidates after it are not touched. -/
theorem psshLoop_split (env : DrmEnv) (sid : Nat) (url : String)
    (tokens : List (Option String)) (xs : List String) (p : String) (ys : List String)
    (hxs : ∀ x ∈ xs, (processPssh env sid url tokens x).1 = [])
    (hp : (processPssh env sid url tokens p).1 ≠ []) :
    psshLoop env sid url tokens [] (xs ++ p :: ys) =
      ((processPssh env sid url tokens p).1,
        (xs.map fun x => (processPssh env sid url tokens x).2).flatten ++
          (processPssh env sid url tokens p).2) := by
  induction xs with
  | nil =>
    simp only [List.nil_append, List.map_nil, List.flatten, psshLoop]
    rw [if_neg (by simpa using hp)]
  | cons x xs ih =>
    have hx : (processPssh env sid url tokens x).1 = [] := hxs x (by simp)
    have ih2 := ih (fun z hz => hxs z (by simp [hz]))
    simp only [List.cons_append, psshLoop, hx]
    rw [if_pos (by simp)]
    simp only [List.append_eq, List.nil_append]
    rw [ih2]
    simp

/-- C5: for every candidate list split as `xs ++ p :: ys` where the
candidates of `xs` contribute no keys and `p` contributes at least one,
`get_keys` tries the candidates in the given order, stops at `p` — the
candidates of `ys` appear nowhere in the trace, so no further challenge
is issued after the first success — and the returned value is the
accumulated key strings deduplicated by string equality (no particular
order guaranteed: the result is duplicate-free and contains exactly the
accumulated keys). -/
theorem C5_candidate_iteration (env : DrmEnv) (url : String) (kw : Kwargs)
    (xs : List String) (p : String) (ys : List String)
    (hH : kw.headers ≠ some HeadersArg.bad)
    (hxs : ∀ x ∈ xs,
      (processPssh env 0 url (buildTokens kw.drm_tokens kw.drm_token).1 x).1 = [])
    (hp : (processPssh env 0 url (buildTokens kw.drm_tokens kw.drm_token).1 p).1 ≠ []) :
    (get_keys env (xs ++ p :: ys) url kw).trace =
      Event.cdmOpen 0 ::
        ((xs.map fun x =>
            (processPssh env 0 url (buildTokens kw.drm_tokens kw.drm_token).1 x).2).flatten ++
          (processPssh env 0 url (buildTokens kw.drm_tokens kw.drm_token).1 p).2) ++
        [Event.cdmClose 0] ∧
    (get_keys env (xs ++ p :: ys) url kw).result =
      Except.ok (dedupKeys
        (processPssh env 0 url (buildTokens kw.drm_tokens kw.drm_token).1 p).1) ∧
    (dedupKeys (processPssh env 0 url (buildTokens kw.drm_tokens kw.drm_token).1 p).1).Nodup ∧
    (∀ s, s ∈ dedupKeys
        (processPssh env 0 url (buildTokens kw.drm_tokens kw.drm_token).1 p).1 ↔
      s ∈ (processPssh env 0 url (buildTokens kw.drm_tokens kw.drm_token).1 p).1) := by
  have hne : xs ++ p :: ys ≠ [] := by simp
  unfold get_keys
  rw [if_neg hne, if_neg hH]
  dsimp only
  rw [psshLoop_split env 0 url _ xs p ys hxs hp]
  exact ⟨rfl, rfl, nodup_dedupKeys _, fun s => mem_dedupKeys _ s⟩

/-- Environment for the C5 witness: the first candidate is rejected by
the license server, the second yields two content keys. -/
def envC5 : DrmEnv :=
  ⟨fun _ => true, fun _ => true,
   fun _ => AttemptResult.raise,
   fun _ _ => AxinomOutcome.raiseOuter,
   fun p =>
     if p == "p2" then
       AttemptResult.response 200 true [⟨"CONTENT", [3], [4]⟩, ⟨"CONTENT", [5], [6]⟩]
     else AttemptResult.response 403 true []⟩

/-- A license URL matching no provider rule (generic strategy). -/
def urlC5 : String := "https://generic.example/lic"

/-- Keyword arguments for the C5 witness. -/
def kwC5 : Kwargs := ⟨none, none, none, none⟩

/-- C5 witness: two candidates, the first yields no license-server
success and the second yields two content keys — the call returns
exactly those two keys, issues exactly one challenge per tried
candidate, and never re-issues a challenge for the first candidate. -/
theorem C5_witness :
    (get_keys envC5 ["p1", "p2"] urlC5 kwC5).trace =
      [Event.cdmOpen 0, Event.cdmChallenge 0 "p1", Event.cdmChallenge 0 "p2",
       Event.cdmParse 0, Event.cdmClose 0] ∧
    (get_keys envC5 ["p1", "p2"] urlC5 kwC5).result = Except.ok ["03:04", "05:06"] := by
  have h := C5_candidate_iteration envC5 urlC5 kwC5 ["p1"] "p2" []
    (by decide) (by decide) (by decide)
  rw [show (["p1"] ++ "p2" :: ([] : List String)) = ["p1", "p2"] from rfl] at h
  refine ⟨?_, ?_⟩
  · rw [h.1]; decide
  · rw [h.2.1]; decide

/-! ## Claim C9 — retained key types and key-string format -/

/-- Whether a character is a lowercase hex digit. -/
def isHexChar (c : Char) : Bool := "0123456789abcdef".data.contains c

/-- Whether a string matches the pattern of one returned key string,
`[0-9a-f]{32}:[0-9a-f]{32}` anchored at both ends. -/
def matchesKeyPattern (s : String) : Bool :=
  (s.data.length == 65) && (s.data.take 32).all isHexChar &&
    ((s.data.drop 32).take 1 == ":".data) && (s.data.drop 33).all isHexChar

/-- Whether a CDM key follows the standard 128-bit key/ID scheme:
16-byte key id, 16-byte key, byte values below 256. -/
def wfKeyB (k : CdmKey) : Bool :=
  (k.kid.length == 16) && (k.key.length == 16) &&
    k.kid.all (fun b => b < 256) && k.key.all (fun b => b < 256)

/-- Well-formedness of one license attempt outcome. -/
def wfAttemptB : AttemptResult → Bool
  | AttemptResult.raise => true
  | AttemptResult.response _ _ ks => ks.all wfKeyB

/-- Well-formedness of one Axinom attempt outcome. -/
def wfAxB : AxinomOutcome → Bool
  | AxinomOutcome.raiseOuter => true
  | AxinomOutcome.raiseTransport => true
  | AxinomOutcome.response _ _ ks => ks.all wfKeyB

/-- All keys any license response of the environment can report follow
the standard 128-bit key/ID scheme. -/
def WfEnv (env : DrmEnv) : Prop :=
  (∀ p, wfAttemptB (env.drmtoday p) = true) ∧
  (∀ p t, wfAxB (env.axinom p t) = true) ∧
  (∀ p, wfAttemptB (env.standard p) = true)

/-- The key is reported by some license response of the environment. -/
def KeyFromEnv (env : DrmEnv) (k : CdmKey) : Prop :=
  (∃ p st pOk ks, env.drmtoday p = AttemptResult.response st pOk ks ∧ k ∈ ks) ∨
  (∃ p t st pOk ks, env.axinom p t = AxinomOutcome.response st pOk ks ∧ k ∈ ks) ∨
  (∃ p st pOk ks, env.standard p = AttemptResult.response st pOk ks ∧ k ∈ ks)

theorem mem_parse_license (sid : Nat) (pOk : Bool) (ks : List CdmKey) (s : String)
    (hs : s ∈ (parse_license sid pOk ks).1) :
    ∃ k ∈ ks, k.type = "CONTENT" ∧ s = renderKey k := by
  cases pOk with
  | false => simp [parse_license] at hs
  | true =>
    simp only [parse_license, if_true] at hs
    simp only [List.mem_map, List.mem_filter] at hs
    obtain ⟨k, ⟨hk1, hk2⟩, hk3⟩ := hs
    exact ⟨k, hk1, by simpa using hk2, hk3.symm⟩

theorem keys_stdAttempt (sid : Nat) (a : AttemptResult) (l : List String) (s : String)
    (ha : (stdAttempt sid a).1 = Except.ok l) (hs : s ∈ l) :
    ∃ st pOk ks, a = AttemptResult.response st pOk ks ∧
      ∃ k ∈ ks, k.type = "CONTENT" ∧ s = renderKey k := by
  cases a with
  | raise => simp [stdAttempt] at ha
  | response st pOk ks =>
    refine ⟨st, pOk, ks, rfl, ?_⟩
    unfold stdAttempt at ha
    dsimp only at ha
    by_cases h : st = 200
    · rw [if_pos h] at ha
      dsimp only at ha
      injection ha with ha2
      exact mem_parse_license sid pOk ks s (ha2 ▸ hs)
    · rw [if_neg h] at ha
      dsimp only at ha
      injection ha with ha2
      rw [← ha2] at hs
      simp at hs

theorem keys_axAttempt (sid : Nat) (o : AxinomOutcome) (s : String)
    (hs : s ∈ (axAttempt sid o).1) :
    ∃ st pOk ks, o = AxinomOutcome.response st pOk ks ∧
      ∃ k ∈ ks, k.type = "CONTENT" ∧ s = renderKey k := by
  cases o with
  | raiseOuter => simp [axAttempt] at hs
  | raiseTransport => simp [axAttempt] at hs
  | response st pOk ks =>
    refine ⟨st, pOk, ks, rfl, ?_⟩
    unfold axAttempt at hs
    dsimp only at hs
    by_cases h : st = 200
    · rw [if_pos h] at hs
      dsimp only at hs
      exact mem_parse_license sid pOk ks s hs
    · rw [if_neg h] at hs
      simp at hs

theorem keys_tokenLoop (env : DrmEnv) (sid : Nat) (pssh : String)
    (ts : List (Option String)) (s : String)
    (hs : s ∈ (tokenLoop env sid pssh ts).1) :
    ∃ t ∈ ts, s ∈ (axAttempt sid (env.axinom pssh t)).1 := by
  induction ts with
  | nil => simp [tokenLoop] at hs
  | cons t rest ih =>
    simp only [tokenLoop] at hs
    by_cases h : (axAttempt sid (env.axinom pssh t)).1 = []
    · rw [if_pos h] at hs
      dsimp only at hs
      obtain ⟨u, hu, hsu⟩ := ih hs
      exact ⟨u, by simp [hu], hsu⟩
    · rw [if_neg h] at hs
      dsimp only at hs
      exact ⟨t, by simp, hs⟩

theorem keys_dispatchBranch (env : DrmEnv) (sid : Nat) (url : String)
    (tokens : List (Option String)) (pssh : String) (l : List String) (s : String)
    (hd : (dispatchBranch env sid url tokens pssh).1 = Except.ok l) (hs : s ∈ l) :
    ∃ k, KeyFromEnv env k ∧ k.type = "CONTENT" ∧ s = renderKey k := by
  unfold dispatchBranch at hd
  split_ifs at hd with h1 h2
  · obtain ⟨st, pOk, ks, ha, k, hk, hc, hr⟩ := keys_stdAttempt sid _ l s hd hs
    exact ⟨k, Or.inl ⟨pssh, st, pOk, ks, ha, hk⟩, hc, hr⟩
  · dsimp only at hd
    injection hd with hd2
    rw [← hd2] at hs
    obtain ⟨t, _, hst⟩ := keys_tokenLoop env sid pssh tokens s hs
    obtain ⟨st, pOk, ks, ha, k, hk, hc, hr⟩ := keys_axAttempt sid _ s hst
    exact ⟨k, Or.inr (Or.inl ⟨pssh, t, st, pOk, ks, ha, hk⟩), hc, hr⟩
  · obtain ⟨st, pOk, ks, ha, k, hk, hc, hr⟩ := keys_stdAttempt sid _ l s hd hs
    exact ⟨k, Or.inr (Or.inr ⟨pssh, st, pOk, ks, ha, hk⟩), hc, hr⟩

theorem keys_processPssh (env : DrmEnv) (sid : Nat) (url : String)
    (tokens : List (Option String)) (pssh : String) (s : String)
    (hs : s ∈ (processPssh env sid url tokens pssh).1) :
    ∃ k, KeyFromEnv env k ∧ k.type = "CONTENT" ∧ s = renderKey k := by
  unfold processPssh at hs
  split_ifs at hs with h1 h2
  · simp at hs
  · simp at hs
  · dsimp only at hs
    cases hbr : (dispatchBranch env sid url tokens pssh).1 with
    | error e =>
      rw [hbr] at hs
      simp at hs
    | ok ks =>
      rw [hbr] at hs
      dsimp only at hs
      exact keys_dispatchBranch env sid url tokens pssh ks s hbr hs

theorem keys_psshLoop (env : DrmEnv) (sid : Nat) (url : String)
    (tokens : List (Option String)) (acc : List String) (ps : List String) (s : String)
    (hs : s ∈ (psshLoop env sid url tokens acc ps).1) :
    s ∈ acc ∨ ∃ p ∈ ps, s ∈ (processPssh env sid url tokens p).1 := by
  induction ps generalizing acc with
  | nil =>
    left
    simpa [psshLoop] using hs
  | cons p rest ih =>
    simp only [psshLoop] at hs
    by_cases h : acc ++ (processPssh env sid url tokens p).1 = []
    · rw [if_pos h] at hs
      dsimp only at hs
      rcases ih _ hs with hacc | ⟨q, hq, hsq⟩
      · rcases List.mem_append.mp hacc with hh | hh
        · exact Or.inl hh
        · exact Or.inr ⟨p, by simp, hh⟩
      · exact Or.inr ⟨q, by simp [hq], hsq⟩
    · rw [if_neg h] at hs
      dsimp only at hs
      rcases List.mem_append.mp hs with hh | hh
      · exact Or.inl hh
      · exact Or.inr ⟨p, by simp, hh⟩

theorem isHexChar_hexDigit (n : Nat) (h : n < 16) : isHexChar (hexDigit n) = true := by
  interval_cases n <;> decide

theorem bytesToHexL_all_hex (bs : List Nat) : (bytesToHexL bs).all isHexChar = true := by
  induction bs with
  | nil => rfl
  | cons b rest ih =>
    have h1 := isHexChar_hexDigit (b / 16 % 16) (Nat.mod_lt _ (by omega))
    have h2 := isHexChar_hexDigit (b % 16) (Nat.mod_lt _ (by omega))
    show (byteToHex b ++ bytesToHexL rest).all isHexChar = true
    simp [byteToHex, List.all_append, h1, h2, ih]

theorem bytesToHexL_length (bs : List Nat) : (bytesToHexL bs).length = 2 * bs.length := by
  induction bs with
  | nil => rfl
  | cons b rest ih =>
    show (byteToHex b ++ bytesToHexL rest).length = 2 * (rest.length + 1)
    simp [byteToHex, ih]
    omega

theorem matchesKeyPattern_renderKey (k : CdmKey)
    (h1 : k.kid.length = 16) (h2 : k.key.length = 16) :
    matchesKeyPattern (renderKey k) = true := by
  have hA : (bytesToHexL k.kid).length = 32 := by rw [bytesToHexL_length, h1]
  have hB : (bytesToHexL k.key).length = 32 := by rw [bytesToHexL_length, h2]
  have hdata : (renderKey k).data =
      bytesToHexL k.kid ++ (":".data ++ bytesToHexL k.key) := by
    show ((bytesToHex k.kid ++ ":") ++ bytesToHex k.key).data = _
    rw [String.data_append, String.data_append]
    rw [List.append_assoc]
    rfl
  have hcolon : (":".data).length = 1 := rfl
  unfold matchesKeyPattern
  rw [hdata]
  have e1 : (bytesToHexL k.kid ++ (":".data ++ bytesToHexL k.key)).length = 65 := by
    simp [List.length_append, hA, hB, hcolon]
  have e2 : (bytesToHexL k.kid ++ (":".data ++ bytesToHexL k.key)).take 32 =
      bytesToHexL k.kid := List.take_left' hA
  have e3 : (bytesToHexL k.kid ++ (":".data ++ bytesToHexL k.key)).drop 32 =
      ":".data ++ bytesToHexL k.key := List.drop_left' hA
  have e4 : (bytesToHexL k.kid ++ (":".data ++ bytesToHexL k.key)).drop 33 =
      bytesToHexL k.key := by
    rw [show (33 : Nat) = 32 + 1 from rfl, ← List.drop_drop, e3]
    exact List.drop_left' hcolon
  rw [e1, e2, e3, e4]
  simp [bytesToHexL_all_hex, List.take_left' hcolon]

/-- C9: every string in a normal `get_keys` result is the rendering
`hex(kid):hex(key)` of a key that some license response of the
environment reported with CDM type `"CONTENT"` (keys of other types are
never retained), and — provided every key the environment can report
follows the standard 128-bit key/ID scheme — it matches the pattern
`^[0-9a-f]{32}:[0-9a-f]{32}$`. -/
theorem C9_key_format (env : DrmEnv) (psshs : List String) (url : String)
    (kw : Kwargs) (l : List String) (hwf : WfEnv env)
    (hres : (get_keys env psshs url kw).result = Except.ok l) :
    ∀ s ∈ l, matchesKeyPattern s = true ∧
      ∃ k, KeyFromEnv env k ∧ k.type = "CONTENT" ∧ s = renderKey k := by
  intro s hsl
  have hk : ∃ k, KeyFromEnv env k ∧ k.type = "CONTENT" ∧ s = renderKey k := by
    unfold get_keys at hres
    by_cases hne : psshs = []
    · rw [if_pos hne] at hres
      injection hres with h
      rw [← h] at hsl
      simp at hsl
    · rw [if_neg hne] at hres
      by_cases hH : kw.headers = some HeadersArg.bad
      · rw [if_pos hH] at hres
        exact absurd hres (by simp)
      · rw [if_neg hH] at hres
        dsimp only at hres
        injection hres with h
        rw [← h] at hsl
        have hsl2 := (mem_dedupKeys _ s).mp hsl
        rcases keys_psshLoop env 0 url _ [] psshs s hsl2 with hacc | ⟨p, _, hsp⟩
        · simp at hacc
        · exact keys_processPssh env 0 url _ p s hsp
  obtain ⟨k, hkenv, hctype, hrender⟩ := hk
  have hwfk : wfKeyB k = true := by
    rcases hkenv with ⟨p, st, pOk, ks, he, hkin⟩ | ⟨p, t, st, pOk, ks, he, hkin⟩ |
      ⟨p, st, pOk, ks, he, hkin⟩
    · have hh := hwf.1 p
      rw [he] at hh
      exact List.all_eq_true.mp hh k hkin
    · have hh := hwf.2.1 p t
      rw [he] at hh
      exact List.all_eq_true.mp hh k hkin
    · have hh := hwf.2.2 p
      rw [he] at hh
      exact List.all_eq_true.mp hh k hkin
  have hlens : k.kid.length = 16 ∧ k.key.length = 16 := by
    simp only [wfKeyB, Bool.and_eq_true, beq_iff_eq] at hwfk
    exact ⟨hwfk.1.1.1, hwfk.1.1.2⟩
  exact ⟨hrender ▸ matchesKeyPattern_renderKey k hlens.1 hlens.2, k, hkenv, hctype, hrender⟩

/-- A standard-scheme content key: all-zero 16-byte id, all-255 16-byte key. -/
def k9 : CdmKey := ⟨"CONTENT", List.replicate 16 0, List.replicate 16 255⟩

/-- The rendering of `k9`. -/
def keyStr9 : String := renderKey k9

/-- Environment for the C9 witness. -/
def env9 : DrmEnv :=
  ⟨fun _ => true, fun _ => true,
   fun _ => AttemptResult.raise,
   fun _ _ => AxinomOutcome.raiseOuter,
   fun _ => AttemptResult.response 200 true [k9]⟩

/-- Keyword arguments for the C9 witness. -/
def kw9 : Kwargs := ⟨none, none, none, none⟩

/-- A generic license URL for the C9 witness. -/
def url9 : String := "https://generic.example/other"

/-- C9 witness: a concrete acquisition returning one key string, which
matches the hex pattern and is the rendering of a CONTENT-typed key. -/
theorem C9_witness :
    matchesKeyPattern keyStr9 = true ∧ k9.type = "CONTENT" ∧
    keyStr9 = renderKey k9 := by
  have hwf : WfEnv env9 := by
    refine ⟨fun p => ?_, fun p t => ?_, fun p => ?_⟩ <;> rfl
  have h := C9_key_format env9 ["p9"] url9 kw9 [keyStr9] hwf
    (by decide) keyStr9 (by simp)
  exact ⟨h.1, rfl, rfl⟩

/-! ## Claim C3 — master-playlist recursion -/

/-- One document fetch as the discovery engine performs it: resolve the
URL, GET it, require HTTP 200 (`none` covers both a raised fetch and a
non-200 response). Helper for the claim-modelled depth-1 variant. -/
def fetchDoc (env : NetEnv) (url0 : String) : Option (String × String) :=
  match env.fetch (resolve_url env url0) with
  | none => none
  | some (st, content) =>
    if st = 200 then some (resolve_url env url0, content) else none

/-- First truthy result in a list of scan outcomes. -/
def firstTruthy : List (Option String) → Option String
  | [] => none
  | r :: rest => if optTruthy r then r else firstTruthy rest

/-- Discovery with recursion depth exactly one level, modelled from
claim C3's words: the top-level document gets the inline steps 1-3; if
it is a master playlist, up to 5 child playlists are scanned in listed
order with steps 1-3 only (a child that is itself a master playlist is
not recursed into further), stopping at the first success; otherwise
the init-segment fallback applies. -/
def get_pssh_depth1 (env : NetEnv) (url0 : String) : Option String :=
  match fetchDoc env url0 with
  | none => none
  | some (url, content) =>
    match inlineOf env content with
    | some v => some v
    | none =>
      let c :=
        if containsStr content streamInfTag then
          firstTruthy (((childUrls env url (pySplitlines content)).take 5).map
            (fun cu =>
              match fetchDoc env cu with
              | none => none
              | some (_, ccontent) => inlineOf env ccontent))
        else none
      match c with
      | some v => some v
      | none => (initScan env url content).1

/-- Master playlist whose single child is `m1`. -/
def mContent0 : String := "#EXT-X-STREAM-INF:BANDWIDTH=1\nm1"

/-- Master playlist whose single child is `m2` — itself a master playlist. -/
def mContent1 : String := "#EXT-X-STREAM-INF:BANDWIDTH=1\nm2"

/-- A leaf variant playlist carrying an inline PSSH element. -/
def mContent2 : String := "<cenc:pssh>PSSH3</cenc:pssh>"

/-- Environment for the C3 counterexample: `m0` is a master playlist
pointing at `m1`, which is itself a master playlist pointing at `m2`,
whose document carries the PSSH; none of the regex scanners match any
of these documents. -/
def envC3 : NetEnv :=
  ⟨fun u =>
     if u == "m0" then some (200, mContent0)
     else if u == "m1" then some (200, mContent1)
     else if u == "m2" then some (200, mContent2)
     else none,
   fun _ => none, fun _ => none, fun _ => none, fun _ => none,
   fun _ child => child, fun _ => none⟩

/-- C3 counterexample: `get_pssh_from_manifest` recurses through the
child master playlist `m1` into the grandchild `m2` and returns its
PSSH — the fetch trace shows all three levels — whereas the claim's
one-level-deep discovery (`get_pssh_depth1`) finds nothing on the same
environment: the source calls itself with no depth bound (base.py line
98), so a child master playlist is recursed into further. -/
theorem C3_counterexample :
    get_pssh_from_manifest envC3 4 "m0" = (some "PSSH3", ["m0", "m1", "m2"]) ∧
    containsStr mContent1 streamInfTag = true ∧
    get_pssh_depth1 envC3 "m0" = none := by
  refine ⟨by decide, by decide, by decide⟩

/-- C3 (amended): for every manifest that is a master playlist, the scan
recurses into at most the first 5 child variant playlists, in listed
order (first conjunct: the child scan receives exactly the first 5
listed children), stopping at the first child whose recursive scan
yields a truthy candidate and leaving the remaining children unfetched
(second conjunct); the recursion depth, however, is not limited to one
level: a child playlist that is itself a master playlist is recursed
into further, bounded only by the interpreter's recursion limit (third
conjunct: the two-level environment of the counterexample succeeds at
depth two through a child that is itself a master playlist). -/
theorem C3_master_recursion :
    (∀ (env : NetEnv) (fuel : Nat) (url content : String),
      env.fetch (resolve_url env url) = some (200, content) →
      inlineOf env content = none →
      containsStr content streamInfTag = true →
      get_pssh_from_manifest env (fuel + 1) url =
        (match (scanChildrenWith (fun u => get_pssh_from_manifest env fuel u)
            ((childUrls env (resolve_url env url) (pySplitlines content)).take 5)).1 with
         | some v =>
           (some v, resolve_url env url ::
             (scanChildrenWith (fun u => get_pssh_from_manifest env fuel u)
               ((childUrls env (resolve_url env url) (pySplitlines content)).take 5)).2)
         | none =>
           ((initScan env (resolve_url env url) content).1,
            resolve_url env url ::
              (scanChildrenWith (fun u => get_pssh_from_manifest env fuel u)
                ((childUrls env (resolve_url env url) (pySplitlines content)).take 5)).2 ++
              (initScan env (resolve_url env url) content).2))) ∧
    (∀ (g : String → Option String × List String) (us1 : List String) (u : String)
        (us2 : List String),
      (∀ x ∈ us1, optTruthy (g x).1 = false) →
      optTruthy (g u).1 = true →
      scanChildrenWith g (us1 ++ u :: us2) =
        ((g u).1, (us1.map fun x => (g x).2).flatten ++ (g u).2)) ∧
    (get_pssh_from_manifest envC3 4 "m0").1 = some "PSSH3" ∧
    containsStr mContent1 streamInfTag = true := by
  refine ⟨?_, ?_, by decide, by decide⟩
  · intro env fuel url content hfetch hinline hmaster
    rw [get_pssh_from_manifest, hfetch]
    dsimp only
    rw [if_neg (by simp), hinline]
    dsimp only
    rw [if_pos hmaster]
  · intro g us1 u us2 hfail hu
    induction us1 with
    | nil =>
      simp only [List.nil_append, List.map_nil, List.flatten, scanChildrenWith]
      rw [if_pos hu]
    | cons x us ih =>
      have hx : optTruthy (g x).1 = false := hfail x (by simp)
      have ih2 := ih (fun z hz => hfail z (by simp [hz]))
      simp only [List.cons_append, scanChildrenWith]
      rw [if_neg (by simp [hx])]
      simp only [List.append_eq]
      rw [ih2]
      simp

/-- A master playlist listing seven child variant playlists. -/
def master7 : String :=
  "#EXT-X-STREAM-INF:a\nc1\n#EXT-X-STREAM-INF:a\nc2\n#EXT-X-STREAM-INF:a\nc3\n#EXT-X-STREAM-INF:a\nc4\n#EXT-X-STREAM-INF:a\nc5\n#EXT-X-STREAM-INF:a\nc6\n#EXT-X-STREAM-INF:a\nc7"

/-- Environment for the C3 witness: a master playlist with 7 children
where the first two children are plain media playlists with no key data
and the third carries an inline PSSH. -/
def env7 : NetEnv :=
  ⟨fun u =>
     if u == "root" then some (200, master7)
     else if u == "c3" then some (200, mContent2)
     else if u == "c1" || u == "c2" then some (200, "#EXTM3U")
     else none,
   fun _ => none, fun _ => none, fun _ => none, fun _ => none,
   fun _ child => child, fun _ => none⟩

set_option maxRecDepth 8000 in
/-- C3 witness: on a master playlist referencing 7 children, discovery
fetches only children `c1`, `c2`, `c3` (at most 5, stopping at the first
success) and returns the third child's candidate. -/
theorem C3_witness :
    get_pssh_from_manifest env7 2 "root" = (some "PSSH3", ["root", "c1", "c2", "c3"]) := by
  have h1 := C3_master_recursion.1 env7 1 "root" master7 (by decide) (by decide) (by decide)
  have h2 := C3_master_recursion.2.1 (fun u => get_pssh_from_manifest env7 1 u)
    ["c1", "c2"] "c3" ["c4", "c5"] (by decide) (by decide)
  rw [show (2 : Nat) = 1 + 1 from rfl, h1,
    show (childUrls env7 (resolve_url env7 "root") (pySplitlines master7)).take 5 =
      ["c1", "c2"] ++ "c3" :: ["c4", "c5"] from by decide, h2]
  decide

end FINDL
